import Mathlib

/-!
Shallow embedding of the firmware-manager decision core
(`rules_engine.py`, `manage_firmware.py`, `main.py`) and proofs about it.

Python values are modelled by `Val`; Python dicts by association lists in
insertion order; callable rule conditions by named predicates drawn from an
explicit environment `FnEnv` (Python compares functions by identity, modelled
here by name equality).  Fallible Python code (code that can raise) is
embedded as `Except String` with the raised message as the error value.
-/

/-- Python value fragment used by the firmware manager: `None`, booleans,
integers, strings, lists, string-keyed dicts, and callables (identified by
name, resolved through a separate predicate environment). -/
inductive Val where
  | none : Val
  | bool (b : Bool) : Val
  | int (n : Int) : Val
  | str (s : String) : Val
  | list (xs : List Val) : Val
  | dict (kvs : List (String × Val)) : Val
  | fn (fid : String) : Val
deriving Repr, Inhabited

/-- Environment resolving a callable condition name to the boolean its call
returns (predicate conditions in the source return a truth value that the
evaluators only ever test for truthiness). -/
def FnEnv : Type := String → Val → Bool

mutual

/-- Python `==` on the embedded fragment.  `None` equals only `None`; numbers
and booleans compare under Python's bool-is-int coercion; strings compare by
content; lists and dicts compare structurally (dict insertion order is
canonical in this model); callables compare by identity (here: by name). -/
def pyEq : Val → Val → Bool
  | .none, .none => true
  | .bool a, .bool b => a == b
  | .bool a, .int n => (if a then (1 : Int) else 0) == n
  | .int n, .bool a => n == (if a then (1 : Int) else 0)
  | .int a, .int b => a == b
  | .str a, .str b => a == b
  | .list a, .list b => pyEqList a b
  | .dict a, .dict b => pyEqDict a b
  | .fn a, .fn b => a == b
  | _, _ => false

/-- Elementwise Python `==` on lists. -/
def pyEqList : List Val → List Val → Bool
  | [], [] => true
  | a :: as_, b :: bs => pyEq a b && pyEqList as_ bs
  | _, _ => false

/-- Entrywise Python `==` on dicts (insertion-order canonical model). -/
def pyEqDict : List (String × Val) → List (String × Val) → Bool
  | [], [] => true
  | (ka, va) :: as_, (kb, vb) :: bs => ka == kb && pyEq va vb && pyEqDict as_ bs
  | _, _ => false

end

/-- Python truthiness on the embedded fragment. -/
def pyTruthy : Val → Bool
  | .none => false
  | .bool b => b
  | .int n => n != 0
  | .str s => s != ""
  | .list xs => !xs.isEmpty
  | .dict kvs => !kvs.isEmpty
  | .fn _ => true

/-- Python `str()` on the values the firmware manager interpolates into
messages (versions and identifiers: strings, `None`, numbers, booleans;
containers get a simplified rendering, never exercised by the claims). -/
def pyStr : Val → String
  | .none => "None"
  | .bool b => if b then "True" else "False"
  | .int n => toString n
  | .str s => s
  | .list _ => "[...]"
  | .dict _ => "\x7b...\x7d"
  | .fn f => f

/-- Is the value a Python string? (`isinstance(v, str)`.) -/
def isStrVal : Val → Bool
  | .str _ => true
  | _ => false

/-- Python `d.get(k, dflt)` on a string-keyed dict: value of the first
occurrence of `k`, or the default when the key is missing. -/
def pyGetD (d : List (String × Val)) (k : String) (dflt : Val) : Val :=
  match d with
  | [] => dflt
  | (k1, v) :: rest => if k1 = k then v else pyGetD rest k dflt

/-- Python `d.get(k)` (default `None`). -/
def pyGet (d : List (String × Val)) (k : String) : Val :=
  pyGetD d k .none

/-- Python `k in d` on a string-keyed dict. -/
def hasKey : List (String × Val) → String → Bool
  | [], _ => false
  | (k1, _) :: rest, k => k1 == k || hasKey rest k


/-- Python `field_name.split(".")` on the characters of the field name: the
separator splits the list into (possibly empty) segments. -/
def splitDotChars : List Char → List (List Char)
  | [] => [[]]
  | c :: rest =>
    let r := splitDotChars rest
    if c = '.' then [] :: r
    else
      match r with
      | h :: t => (c :: h) :: t
      | [] => [[c]]

/-- Python `field_name.split(".")`. -/
def splitDot (s : String) : List String :=
  (splitDotChars s.data).map (fun l => ⟨l⟩)

namespace RulesEngine

/-- Inner loop of `rules_engine.resolve_field_value`: walk the remaining path
segments through nested dicts; a non-dict intermediate or a missing key (or an
explicit `None` value) resolves to `None` without raising. -/
def walkPath : Val → List String → Val
  | v, [] => v
  | v, p :: rest =>
    match v with
    | .dict d =>
      match pyGet d p with
      | .none => .none
      | nv => walkPath nv rest
    | _ => .none

/-- `rules_engine.resolve_field_value`: a field name without a dot is a plain
`device_data.get`; a dotted field name is resolved segment by segment through
nested dicts, yielding `None` on any miss. -/
def resolve_field_value (device_data : List (String × Val)) (field_name : String) : Val :=
  match splitDot field_name with
  | [] => .none
  | [single] => pyGet device_data single
  | p0 :: rest =>
    match pyGet device_data p0 with
    | .none => .none
    | v0 => walkPath v0 rest

/-- `rules_engine.getFirmwareUpdateTargets`'s inner `match_condition`: a
callable condition is invoked with the device value; any other condition is
compared with Python `==`. -/
def match_condition (fnEnv : FnEnv) (value condition : Val) : Bool :=
  match condition with
  | .fn f => fnEnv f value
  | c => pyEq value c

/-- Iteration of `checkConditions` over the entries of a conditions dict:
every entry must match (the source returns `False` at the first mismatch). -/
def checkCondList (fnEnv : FnEnv) (device_data : List (String × Val)) :
    List (String × Val) → Bool
  | [] => true
  | (f, c) :: rest =>
    match_condition fnEnv (resolve_field_value device_data f) c
      && checkCondList fnEnv device_data rest

/-- `rules_engine.getFirmwareUpdateTargets`'s inner `checkConditions`:
`None` conditions always hold; a dict is checked entrywise; anything else
raises (`conditions.items()` on a non-dict). -/
def checkConditions (fnEnv : FnEnv) (device_data : List (String × Val))
    (conditions : Val) : Except String Bool :=
  match conditions with
  | .none => .ok true
  | .dict items => .ok (checkCondList fnEnv device_data items)
  | _ => .error "AttributeError: conditions object has no attribute items"

/-- One iteration of the rule loop in `rules_engine.getFirmwareUpdateTargets`
for the rule at 0-based position `i`: reads `conditions`, `id` (defaulted to
`rule-(i+1)`), and `target_versions`, and reports whether the rule matched
together with the pair it would return.  A non-dict rule raises
(`rule.get` on a non-dict). -/
def ruleEval (fnEnv : FnEnv) (device_data : List (String × Val)) (i : Nat)
    (r : Val) : Except String (Bool × Val × Val) :=
  match r with
  | .dict d =>
    let conditions := pyGet d "conditions"
    let j := i + 1
    let rule_id := pyGetD d "id" (.str s!"rule-{j}")
    let target_versions := pyGet d "target_versions"
    (checkConditions fnEnv device_data conditions).map
      (fun b => (b, rule_id, target_versions))
  | _ => .error "AttributeError: rule object has no attribute get"

/-- The rule loop of `rules_engine.getFirmwareUpdateTargets`, carrying the
0-based position of the head rule: returns the first matched rule's
`(id, target_versions)` pair, or `(None, None)` when no rule matches. -/
def evalRulesFrom (fnEnv : FnEnv) (device_data : List (String × Val)) :
    Nat → List Val → Except String (Val × Val)
  | _, [] => .ok (.none, .none)
  | i, r :: rest =>
    match ruleEval fnEnv device_data i r with
    | .error e => .error e
    | .ok (true, rule_id, target_versions) => .ok (rule_id, target_versions)
    | .ok (false, _, _) => evalRulesFrom fnEnv device_data (i + 1) rest

/-- `rules_engine.getFirmwareUpdateTargets`: normalizes a bare rule into a
one-element list, then evaluates rules in order. -/
def getFirmwareUpdateTargets (fnEnv : FnEnv) (device_data : List (String × Val))
    (rules : Val) : Except String (Val × Val) :=
  let rl := match rules with
    | .list l => l
    | v => [v]
  evalRulesFrom fnEnv device_data 0 rl

end RulesEngine

/-- External collaborator calls the orchestrator can perform, recorded in
order as a trace: firmware-update-history fetches, update-status queries, and
update requests (`project.requestDeviceFirmwareUpdate`). -/
inductive ExtCall where
  | historyQuery (deviceUID channel : String) : ExtCall
  | statusQuery (deviceUID channel : String) : ExtCall
  | updateRequest (deviceUID file channel : String) : ExtCall
deriving Repr, DecidableEq

/-- Is the call an update-status query? -/
def ExtCall.isStatusQuery : ExtCall → Bool
  | .statusQuery _ _ => true
  | _ => false

/-- Is the call an update request? -/
def ExtCall.isUpdateRequest : ExtCall → Bool
  | .updateRequest _ _ _ => true
  | _ => false

namespace ManageFirmware

/-- `FirmwareType.Notecard` (`notehub.py`). -/
def notecardType : String := "notecard"

/-- `FirmwareType.Host` (`notehub.py`). -/
def hostType : String := "host"

/-- State of `FirmwareCache`: the two-level `channel → version → filename`
snapshot (versions keyed by Python values, compared with `==`) and the single
expiry timestamp.  A fresh instance starts with an empty dict and expiry 0. -/
structure CacheState where
  cache : List (String × List (Val × Val))
  cache_expiry : Int
deriving Repr

/-- A fresh `FirmwareCache()`. -/
def initialCache : CacheState := ⟨[], 0⟩

/-- `FirmwareCache._expiration_duration_seconds`. -/
def expirationDurationSeconds : Int := 1800

/-- The comparison computed by the body of `FirmwareCache._cacheIsExpired`:
`time.time() >= self.cache_expiry`. -/
def cacheIsExpired (now : Int) (st : CacheState) : Bool :=
  now ≥ st.cache_expiry

/-- Truth value of the guard `if self._cacheIsExpired:` in
`FirmwareCache.retrieve`.  The source omits the call parentheses, so the
tested object is the bound method itself, and a bound method is truthy in
Python for every state and time: the guard holds unconditionally, independent
of the `cacheIsExpired` comparison the method body would have computed. -/
def retrieveRefreshGuard (_now : Int) (_st : CacheState) : Bool := true

/-- Lookup in the version dict of one channel (Python `version in d` /
`d[version]`, keys compared with `==`). -/
def vFind : List (Val × Val) → Val → Option Val
  | [], _ => Option.none
  | (k, v) :: rest, key => if pyEq k key then some v else vFind rest key

/-- Python dict assignment `d[k] = v` on a version dict. -/
def vSet : List (Val × Val) → Val → Val → List (Val × Val)
  | [], k, v => [(k, v)]
  | (k1, v1) :: rest, k, v =>
    if pyEq k1 k then (k1, v) :: rest else (k1, v1) :: vSet rest k v

/-- Lookup of a channel in the two-level cache (Python
`firmwareType in self.cache` / `self.cache[firmwareType]`). -/
def outerFind : List (String × List (Val × Val)) → String → Option (List (Val × Val))
  | [], _ => Option.none
  | (k, m) :: rest, key => if k = key then some m else outerFind rest key

/-- Replacement of one channel's version dict in the two-level cache. -/
def outerSet : List (String × List (Val × Val)) → String → List (Val × Val) →
    List (String × List (Val × Val))
  | [], k, m => [(k, m)]
  | (k1, m1) :: rest, k, m =>
    if k1 = k then (k1, m) :: rest else (k1, m1) :: outerSet rest k m

/-- Entry loop of `FirmwareCache.update`: for each catalog entry, read
`type`, `version`, `filename`, skip the entry if any is missing, otherwise
perform `c[t][v] = f`.  A type outside the two prepared channel keys raises
`KeyError`; a non-dict entry raises on `.get`. -/
def updateFold (c : List (String × List (Val × Val))) :
    List Val → Except String (List (String × List (Val × Val)))
  | [] => .ok c
  | e :: rest =>
    match e with
    | .dict ed =>
      let t := pyGet ed "type"
      let v := pyGet ed "version"
      let f := pyGet ed "filename"
      match t, v, f with
      | .none, _, _ => updateFold c rest
      | _, .none, _ => updateFold c rest
      | _, _, .none => updateFold c rest
      | t, v, f =>
        match t with
        | .str ts =>
          match outerFind c ts with
          | some m => updateFold (outerSet c ts (vSet m v f)) rest
          | Option.none => .error s!"KeyError: {ts}"
        | other => .error s!"KeyError: {pyStr other}"
    | _ => .error "AttributeError: catalog entry object has no attribute get"

/-- `FirmwareCache.update`: record the current time, fetch the catalog (its
entries are the `catalog` argument), rebuild the two-level map from scratch
over the two prepared channels, and set the expiry to now plus the TTL. -/
def update (_st : CacheState) (now : Int) (catalog : List Val) :
    Except String CacheState :=
  let c0 : List (String × List (Val × Val)) := [(notecardType, []), (hostType, [])]
  (updateFold c0 catalog).map (fun c => ⟨c, now + expirationDurationSeconds⟩)

/-- Outcome of one `FirmwareCache.retrieve` call: the state it leaves behind,
the returned filename or the raised message, and whether the call invoked
`update` (refreshed). -/
structure RetrieveResult where
  state : CacheState
  result : Except String String
  updated : Bool
deriving Repr

/-- `FirmwareCache.retrieve`: the refresh guard (see `retrieveRefreshGuard`)
holds on every call, so `update` always runs first; then the channel key is
checked (`not available` error), then the version key (a single
`not available in local firmware cache` message regardless of whether the
channel has other versions), then the filename is validated to be a non-empty
string (`Invalid firmware file name` error); on success the filename is
returned. -/
def retrieve (st : CacheState) (now : Int) (catalog : List Val)
    (firmwareType : String) (version : Val) : RetrieveResult :=
  let doRefresh := retrieveRefreshGuard now st
  let refreshed : Except String CacheState :=
    if doRefresh then update st now catalog else .ok st
  match refreshed with
  | .error e => ⟨st, .error e, doRefresh⟩
  | .ok st1 =>
    match outerFind st1.cache firmwareType with
    | Option.none =>
      ⟨st1, .error s!"Firmware for {firmwareType} not available in local firmware cache",
        doRefresh⟩
    | some m =>
      match vFind m version with
      | Option.none =>
        ⟨st1, .error
          s!"Firmware version {pyStr version} for {firmwareType} not available in local firmware cache",
          doRefresh⟩
      | some f =>
        match f with
        | .str fs =>
          if fs = "" then
            ⟨st1, .error
              s!"Invalid firmware file name for version {pyStr version} for {firmwareType} not available in local firmware cache",
              doRefresh⟩
          else ⟨st1, .ok fs, doRefresh⟩
        | _ =>
          ⟨st1, .error
            s!"Invalid firmware file name for version {pyStr version} for {firmwareType} not available in local firmware cache",
            doRefresh⟩

end ManageFirmware

namespace ManageFirmware

/-- `manage_firmware.getFirmwareUpdateTargets`'s inner `match_condition`: a
`None` condition always matches, a callable condition is invoked with the
value, any other condition is compared with Python `==`. -/
def match_condition (fnEnv : FnEnv) (value condition : Val) : Bool :=
  match condition with
  | .none => true
  | .fn f => fnEnv f value
  | c => pyEq value c

/-- One iteration of the rule loop in `manage_firmware.getFirmwareUpdateTargets`
for the rule at 0-based position `i`: reads `conditions`, `id` (defaulted to
`rule-(i+1)`) and `targetVersions`; a `None` conditions value matches
unconditionally, a conditions dict is checked on the three fixed keys
`notecard`, `host`, `fleet`, and any other conditions value raises
(`c.get` on a non-dict). -/
def ruleEval (fnEnv : FnEnv) (fleetUID notecardVersion hostVersion : Val)
    (i : Nat) (r : Val) : Except String (Bool × Val × Val) :=
  match r with
  | .dict d =>
    let c := pyGet d "conditions"
    let j := i + 1
    let rule_id := pyGetD d "id" (.str s!"rule-{j}")
    let targetVersions := pyGet d "targetVersions"
    match c with
    | .none => .ok (true, rule_id, targetVersions)
    | .dict cd =>
      .ok (match_condition fnEnv notecardVersion (pyGet cd "notecard")
            && match_condition fnEnv hostVersion (pyGet cd "host")
            && match_condition fnEnv fleetUID (pyGet cd "fleet"),
          rule_id, targetVersions)
    | _ => .error "AttributeError: conditions object has no attribute get"
  | _ => .error "AttributeError: rule object has no attribute get"

/-- The rule loop of `manage_firmware.getFirmwareUpdateTargets`, carrying the
0-based position of the head rule. -/
def evalRulesFrom (fnEnv : FnEnv) (fleetUID notecardVersion hostVersion : Val) :
    Nat → List Val → Except String (Val × Val)
  | _, [] => .ok (.none, .none)
  | i, r :: rest =>
    match ruleEval fnEnv fleetUID notecardVersion hostVersion i r with
    | .error e => .error e
    | .ok (true, rule_id, targetVersions) => .ok (rule_id, targetVersions)
    | .ok (false, _, _) =>
      evalRulesFrom fnEnv fleetUID notecardVersion hostVersion (i + 1) rest

/-- `manage_firmware.getFirmwareUpdateTargets` (the fixed-key variant):
normalizes a bare rule into a one-element list, then evaluates rules in order
against the three fixed fields. -/
def getFirmwareUpdateTargets (fnEnv : FnEnv)
    (fleetUID notecardVersion hostVersion : Val) (rules : Val) :
    Except String (Val × Val) :=
  let rl := match rules with
    | .list l => l
    | v => [v]
  evalRulesFrom fnEnv fleetUID notecardVersion hostVersion 0 rl

/-- `manage_firmware.fetchDeviceFirmwareVersion`:
`d.get("current", {}).get("version")` on the update-history response. -/
def fetchDeviceFirmwareVersion (history : List (String × Val)) :
    Except String Val :=
  match pyGetD history "current" (.dict []) with
  | .dict cur => .ok (pyGet cur "version")
  | _ => .error "AttributeError: current object has no attribute get"

/-- `manage_firmware.requestUpdateToTargetVersion`: reads the channel's entry
of `targetVersions` (raising on a non-dict), returns a no-request message when
the entry is missing, a skip message when it equals the current version,
otherwise calls `firmwareCache.retrieve`; a raised cache error propagates
(the source has no handler around the retrieve), and on success the update
request is issued and a `Requested` message returned.  The source's
`if file is None: raise` guard is unreachable here because `retrieve` only
returns validated non-empty strings. -/
def requestUpdateToTargetVersion (st : CacheState) (now : Int)
    (catalog : List Val) (deviceUID : String) (currentVersion : Val)
    (targetVersions : Val) (firmwareType : String) :
    Except String (CacheState × String × List ExtCall) :=
  match targetVersions with
  | .dict tv =>
    match pyGet tv firmwareType with
    | .none => .ok (st, s!"No firmware update request for {firmwareType}", [])
    | fw =>
      if pyEq fw currentVersion then
        .ok (st,
          s!"Skipping update request for {firmwareType}. Already at target version of {pyStr fw}.",
          [])
      else
        let r := retrieve st now catalog firmwareType fw
        match r.result with
        | .error e => .error e
        | .ok file =>
          .ok (r.state,
            s!"Requested {firmwareType} firmware update from {pyStr currentVersion} to {pyStr fw}.",
            [ExtCall.updateRequest deviceUID file firmwareType])
  | _ => .error "AttributeError: targetVersions object has no attribute get"

/-- External project state visible to one `manageFirmware` invocation: the
update-history responses, the update-status responses for the two channels,
and the firmware catalog the cache refresh would fetch. -/
structure ProjectEnv where
  ncHistory : List (String × Val)
  hostHistory : List (String × Val)
  ncStatus : List (String × Val)
  hostStatus : List (String × Val)
  catalog : List Val
deriving Repr

/-- First step of `manageFirmware` for one channel: a `None` version argument
is filled by fetching the device's update history (recorded in the trace);
any other argument is used as given. -/
def resolveVersion (arg : Val) (history : List (String × Val))
    (deviceUID channel : String) : Except String (Val × List ExtCall) :=
  match arg with
  | .none =>
    (fetchDeviceFirmwareVersion history).map
      (fun v => (v, [ExtCall.historyQuery deviceUID channel]))
  | v => .ok (v, [])

/-- `manage_firmware.manageFirmware` (the variant present in `src/`): fill
missing current versions, evaluate the fixed-key rules, return the fixed
message when no rule matched (`ruleID is None`), the requirements-met message
when the matched target is `None`, then query the notecard update status and
abort if an update is in progress, then likewise for the host, and finally
run the two per-channel update requests (notecard first), joining the three
messages with single spaces.  The returned trace lists the external calls in
the order the source performs them. -/
def manageFirmware (env : ProjectEnv) (st : CacheState) (now : Int)
    (fnEnv : FnEnv) (deviceUID : String) (fleetUID ncVArg hostVArg : Val)
    (rules : Val) : Except String (String × CacheState × List ExtCall) :=
  match resolveVersion ncVArg env.ncHistory deviceUID notecardType with
  | .error e => .error e
  | .ok (notecardFirmwareVersion, tr1) =>
    match resolveVersion hostVArg env.hostHistory deviceUID hostType with
    | .error e => .error e
    | .ok (hostFirmwareVersion, tr2) =>
      match getFirmwareUpdateTargets fnEnv fleetUID notecardFirmwareVersion
          hostFirmwareVersion rules with
      | .error e => .error e
      | .ok (ruleID, targetVersions) =>
        let tr := tr1 ++ tr2
        match ruleID with
        | .none => .ok ("No rule conditions met. No updates required", st, tr)
        | ruleID =>
          let ruleMessage := s!"According to rule id {pyStr ruleID},"
          match targetVersions with
          | .none =>
            .ok (s!"{ruleMessage} firmware requirements met, no updates required",
              st, tr)
          | targetVersions =>
            let tr := tr ++ [ExtCall.statusQuery deviceUID notecardType]
            if pyTruthy (pyGetD env.ncStatus "dfu_in_progress" (.bool false)) then
              .ok (s!"{ruleMessage} firmware requirements NOT met.  Update not requested because Notecard update is in progress",
                st, tr)
            else
              let tr := tr ++ [ExtCall.statusQuery deviceUID hostType]
              if pyTruthy (pyGetD env.hostStatus "dfu_in_progress" (.bool false)) then
                .ok (s!"{ruleMessage} firmware requirements NOT met.  Update not requested because Host update is in progress",
                  st, tr)
              else
                match requestUpdateToTargetVersion st now env.catalog deviceUID
                    notecardFirmwareVersion targetVersions notecardType with
                | .error e => .error e
                | .ok (st1, ncMessage, calls1) =>
                  match requestUpdateToTargetVersion st1 now env.catalog deviceUID
                      hostFirmwareVersion targetVersions hostType with
                  | .error e => .error e
                  | .ok (st2, hostMessage, calls2) =>
                    .ok (s!"{ruleMessage} {ncMessage} {hostMessage}", st2,
                      tr ++ calls1 ++ calls2)

end ManageFirmware

namespace Main

/-- The parameter list of `manage_firmware.manageFirmware` as defined in
`src/manage_firmware.py`:
`(project, deviceUID, fleetUID=None, notecardFirmwareVersion=None, hostFirmwareVersion=None, rules={})`. -/
def manageFirmwareParams : List String :=
  ["project", "deviceUID", "fleetUID", "notecardFirmwareVersion",
   "hostFirmwareVersion", "rules"]

/-- Keyword-argument step of Python call binding for a plain
positional-or-keyword parameter list (no `*args`/`**kwargs`): a keyword that
names no parameter raises `TypeError` (unexpected keyword argument); a
keyword for a parameter already bound positionally raises `TypeError`
(multiple values). -/
def bindKwargs (params : List String) (posCount : Nat) (fname : String) :
    List String → Except String (List String)
  | [] => .ok []
  | k :: rest =>
    if params.contains k = false then
      .error s!"TypeError: {fname}() got an unexpected keyword argument {k}"
    else if (params.take posCount).contains k then
      .error s!"TypeError: {fname}() got multiple values for argument {k}"
    else (bindKwargs params posCount fname rest).map (fun l => k :: l)

/-- Python call binding: positional arguments bind to the leading parameters
in order (returned as parameter-name paired with argument position), then the
keyword arguments are checked.  All parameters after the second of
`manageFirmware` carry defaults, so no missing-argument error can arise for
the call under study and that check is not modelled. -/
def bindCall (params : List String) (posCount : Nat) (kwargs : List String)
    (fname : String) : Except String (List (String × Nat) × List String) :=
  if params.length < posCount then
    .error s!"TypeError: {fname}() takes {params.length} positional arguments but {posCount} were given"
  else
    (bindKwargs params posCount fname kwargs).map
      (fun ks => ((params.take posCount).enum.map (fun p => (p.2, p.1)), ks))

/-- The call performed by `main.processRoutedSession`:
`manageFirmware(project, deviceUID, payload, rules=DevicesInUpdateFleet, is_dry_run=is_dry_run)`
— three positional arguments and the keywords `rules` and `is_dry_run`.  The
function body that would run if binding succeeded is abstracted as the
continuation `k`; binding is attempted first, exactly as Python does. -/
def processRoutedSession
    (k : List (String × Nat) × List String → Except String String) :
    Except String String :=
  match bindCall manageFirmwareParams 3 ["rules", "is_dry_run"] "manageFirmware" with
  | .error e => .error e
  | .ok b => k b

/-- An HTTP-style response of `main.lambda_handler`. -/
structure Response where
  statusCode : Nat
  body : String
deriving Repr, DecidableEq

/-- Simplified rendering of
`json.dumps({"error": str(e), "request_payload": event["body"]})` for the 500
branch of `lambda_handler` (serialization details abstracted; the raised
message is embedded verbatim). -/
def dumpsError (e : String) : String :=
  "\x7b\"error\": \"" ++ e ++ "\"\x7d"

/-- Simplified rendering of
`json.dumps({"response": r, "request_payload": payload})` for the 200 branch. -/
def dumpsResult (r : String) : String :=
  "\x7b\"response\": \"" ++ r ++ "\"\x7d"

/-- `main.lambda_handler` for an event whose body already parsed to the dict
`payload`: a failed authentication yields 401; a missing, falsy, or
non-string device UID yields 400; otherwise `processRoutedSession` runs
inside the `try` block and any raised exception yields 500, a normal return
yields 200.  The would-be body of `manageFirmware` is abstracted as the
continuation `k` (see `processRoutedSession`). -/
def lambda_handler
    (k : List (String × Nat) × List String → Except String String)
    (authResult : List (String × Val)) (payload : List (String × Val)) :
    Response :=
  if pyTruthy (pyGetD authResult "success" (.bool false)) = false then
    ⟨401, pyStr (pyGetD authResult "error"
      (.str "authentication failure reason not provided"))⟩
  else
    let deviceUID := pyGet payload "device"
    if (pyTruthy deviceUID && isStrVal deviceUID) = false then
      ⟨400, "bad request. missing valid device UID from the request"⟩
    else
      match processRoutedSession k with
      | .error e => ⟨500, dumpsError e⟩
      | .ok r => ⟨200, dumpsResult r⟩

end Main

namespace SpecModel

/-- Modelled from the spec: the dry-run-capable per-channel resolution of the
Update Orchestrator, §4.4 steps 5 and 6 (the corresponding source function,
the `checkUpdateToTargetVersion`-based orchestrator exercised by the
repository's tests and called by `main.py` with `is_dry_run`, is not present
under `src/`).  For one channel: a target map without an entry for the
channel yields a no-request message; a target equal to the current version
yields a skip message; otherwise the artifact-cache lookup outcome
(`cacheResult`) decides: a cache failure becomes a channel-scoped
`Cannot update` message, and a resolved artifact yields, in dry-run mode, a
conditional `Would request` message with no external call, and in live mode a
completed-action `Requested` message together with exactly one
`requestFirmwareUpdate` call.  A non-mapping target spec has no per-channel
entry. -/
def channelStep (dryRun : Bool) (deviceUID : String) (currentVersion : Val)
    (target : Val) (cacheResult : Except String String) (channel : String) :
    String × List ExtCall :=
  let fw := match target with
    | .dict m => pyGet m channel
    | _ => Val.none
  match fw with
  | .none => (s!"No firmware update request for {channel}", [])
  | fw =>
    if pyEq fw currentVersion then
      (s!"Skipping update request for {channel}. Already at target version of {pyStr fw}.", [])
    else
      match cacheResult with
      | .error e => (s!"Cannot update {channel}: {e}", [])
      | .ok file =>
        if dryRun then
          (s!"Would request {channel} firmware update from {pyStr currentVersion} to {pyStr fw}.", [])
        else
          (s!"Requested {channel} firmware update from {pyStr currentVersion} to {pyStr fw}.",
            [ExtCall.updateRequest deviceUID file channel])

/-- Modelled from the spec: the Update Orchestrator of §4.4 with its dry-run
mode (steps 2-7; the dry-run-capable `manageFirmware` variant exercised by
the repository's tests is not present under `src/`).  Rule evaluation uses
the general Rule Set Evaluator (`rules_engine.getFirmwareUpdateTargets`); the
in-flight guards abort the whole orchestration (notecard checked before
host); the per-channel steps run notecard first; and the result is the
optional `Dry-Run: ` marker, the rule-identification clause, and the two
channel messages.  The cache lookup outcomes for the two channels enter as
the oracle arguments `ncCacheResult` and `hostCacheResult`. -/
def orchestrate (dryRun : Bool) (fnEnv : FnEnv)
    (deviceAttrs : List (String × Val)) (rules : Val)
    (ncCurrent hostCurrent : Val) (ncInProgress hostInProgress : Bool)
    (ncCacheResult hostCacheResult : Except String String)
    (deviceUID : String) : Except String (String × List ExtCall) :=
  match RulesEngine.getFirmwareUpdateTargets fnEnv deviceAttrs rules with
  | .error e => .error e
  | .ok (ruleID, target) =>
    let marker := if dryRun then "Dry-Run: " else ""
    match ruleID with
    | .none => .ok (marker ++ "No rule conditions met. No updates required", [])
    | ruleID =>
      let ruleMessage := s!"According to rule id {pyStr ruleID},"
      match target with
      | .none =>
        .ok (marker ++ s!"{ruleMessage} firmware requirements met, no updates required", [])
      | target =>
        if ncInProgress then
          .ok (marker ++ s!"{ruleMessage} firmware requirements NOT met.  Update not requested because Notecard update is in progress",
            [ExtCall.statusQuery deviceUID "notecard"])
        else if hostInProgress then
          .ok (marker ++ s!"{ruleMessage} firmware requirements NOT met.  Update not requested because Host update is in progress",
            [ExtCall.statusQuery deviceUID "notecard", ExtCall.statusQuery deviceUID "host"])
        else
          let nc := channelStep dryRun deviceUID ncCurrent target ncCacheResult "notecard"
          let host := channelStep dryRun deviceUID hostCurrent target hostCacheResult "host"
          .ok (marker ++ s!"{ruleMessage} {nc.1} {host.1}",
            [ExtCall.statusQuery deviceUID "notecard", ExtCall.statusQuery deviceUID "host"]
              ++ nc.2 ++ host.2)

/-- External calls of an orchestration outcome (none when rule evaluation
raised). -/
def callsOf (r : Except String (String × List ExtCall)) : List ExtCall :=
  match r with
  | .ok (_, calls) => calls
  | .error _ => []

end SpecModel

/-- A predicate environment with no matching callables (used to instantiate
theorems whose rule sets contain no predicate conditions). -/
def noFn : FnEnv := fun _ _ => false

namespace ManageFirmware

/-- External calls of a `manageFirmware` outcome (none when it raised). -/
def callsOf (r : Except String (String × CacheState × List ExtCall)) :
    List ExtCall :=
  match r with
  | .ok (_, _, calls) => calls
  | .error _ => []

end ManageFirmware

theorem pyGetD_of_hasKey (d : List (String × Val)) (k : String) (dflt : Val)
    (h : hasKey d k = true) : pyGetD d k dflt = pyGet d k := by
  induction d with
  | nil => simp [hasKey] at h
  | cons p rest ih =>
    cases p with
    | mk k1 v =>
      simp only [hasKey, Bool.or_eq_true, beq_iff_eq] at h
      by_cases hk : k1 = k
      · simp [pyGetD, pyGet, hk]
      · simp only [pyGetD, pyGet, if_neg hk]
        exact ih (h.resolve_left hk)

theorem pyGetD_of_not_hasKey (d : List (String × Val)) (k : String) (dflt : Val)
    (h : hasKey d k = false) : pyGetD d k dflt = dflt := by
  induction d with
  | nil => rfl
  | cons p rest ih =>
    cases p with
    | mk k1 v =>
      simp only [hasKey, Bool.or_eq_false_iff, beq_eq_false_iff_ne] at h
      simp only [pyGetD, if_neg h.1]
      exact ih h.2

/-- C4: the claim states that a `retrieve` strictly before `T + TTL` does not
invoke `refresh` again.  The code contradicts it: the guard
`if self._cacheIsExpired:` tests the bound method object itself (the call
parentheses are missing), which is always truthy, so `update` runs on every
`retrieve`.  Concretely, for a cache refreshed at time 1000 (expiry 2800) and
a retrieve at time 2799 = T + TTL − 1, the staleness comparison the method
body would compute is false, yet the retrieve still refreshes — here against
an empty catalog, which wipes the cached entry and makes the lookup fail even
though the non-expired snapshot held it. -/
theorem retrieve_always_refreshes_code_bug :
    ManageFirmware.cacheIsExpired 2799
      ⟨[("notecard", [(Val.str "8.1.3", Val.str "notecard-8.1.3.bin")])], 2800⟩ = false
    ∧ (ManageFirmware.retrieve
        ⟨[("notecard", [(Val.str "8.1.3", Val.str "notecard-8.1.3.bin")])], 2800⟩
        2799 [] "notecard" (Val.str "8.1.3")).updated = true
    ∧ (ManageFirmware.retrieve
        ⟨[("notecard", [(Val.str "8.1.3", Val.str "notecard-8.1.3.bin")])], 2800⟩
        2799 [] "notecard" (Val.str "8.1.3")).result
      = .error "Firmware version 8.1.3 for notecard not available in local firmware cache" :=
  ⟨rfl, rfl, rfl⟩

/-- C7: the claim requires the version-not-found message to distinguish a
channel with zero known versions from a channel that has versions but not the
requested one (the repository's own test
`test_firmware_cache_retrieve_empty_versions_list` asserts a distinct
`No firmware versions found` message).  The code produces the same single
message in both situations: retrieving version 8.1.3 against a catalog that
leaves the notecard channel empty and against one that holds only version
9.0.0 for it raises the identical string, which never contains the
distinguishing text. -/
theorem retrieve_version_miss_message_code_bug :
    (ManageFirmware.retrieve ManageFirmware.initialCache 1000 []
        "notecard" (Val.str "8.1.3")).result
      = .error "Firmware version 8.1.3 for notecard not available in local firmware cache"
    ∧ (ManageFirmware.retrieve ManageFirmware.initialCache 1000
        [.dict [("type", .str "notecard"), ("version", .str "9.0.0"),
                ("filename", .str "notecard-9.0.0.bin")]]
        "notecard" (Val.str "8.1.3")).result
      = .error "Firmware version 8.1.3 for notecard not available in local firmware cache"
    ∧ (ManageFirmware.retrieve ManageFirmware.initialCache 1000 []
        "notecard" (Val.str "8.1.3")).result
      = (ManageFirmware.retrieve ManageFirmware.initialCache 1000
          [.dict [("type", .str "notecard"), ("version", .str "9.0.0"),
                  ("filename", .str "notecard-9.0.0.bin")]]
          "notecard" (Val.str "8.1.3")).result :=
  ⟨rfl, rfl, rfl⟩

/-- Firmware catalog used in concrete scenarios: one notecard image 8.1.4 and
one host image 3.1.3. -/
def demoCatalog : List Val :=
  [.dict [("type", .str "notecard"), ("version", .str "8.1.4"),
          ("filename", .str "notecard-8.1.4.bin")],
   .dict [("type", .str "host"), ("version", .str "3.1.3"),
          ("filename", .str "host-3.1.3.bin")]]

/-- Project environment used in concrete scenarios: no update in progress on
either channel, histories empty, catalog `demoCatalog`. -/
def demoEnv : ManageFirmware.ProjectEnv :=
  { ncHistory := [], hostHistory := [],
    ncStatus := [("dfu_in_progress", .bool false)],
    hostStatus := [("dfu_in_progress", .bool false)],
    catalog := demoCatalog }

/-- C3: the claim states that a cache-lookup failure is caught and rendered
as a channel-scoped `cannot update` message inside a normally returned result
string (and the repository's test `test_check_update_firmware_cache_exception`
asserts exactly that for the orchestration's per-channel check).  The code
under `src/` has no handler around `firmwareCache.retrieve`: with a matched
rule targeting notecard 9.9.9, a version absent from the catalog, both
`requestUpdateToTargetVersion` and the whole `manageFirmware` call evaluate
to the raised cache error — the exception propagates to the caller and no
result string is returned. -/
theorem cache_miss_propagates_code_bug :
    ManageFirmware.requestUpdateToTargetVersion ManageFirmware.initialCache 1000
      demoCatalog "device123" (.str "8.1.3") (.dict [("notecard", .str "9.9.9")])
      "notecard"
      = .error "Firmware version 9.9.9 for notecard not available in local firmware cache"
    ∧ ManageFirmware.manageFirmware demoEnv ManageFirmware.initialCache 1000 noFn
      "device123" .none (.str "8.1.3") (.str "3.1.2")
      (.list [.dict [("id", .str "rule-1"), ("conditions", .none),
                     ("targetVersions", .dict [("notecard", .str "9.9.9")])]])
      = .error "Firmware version 9.9.9 for notecard not available in local firmware cache" :=
  ⟨rfl, rfl⟩

/-- C2: for every authenticated request whose payload holds a valid (truthy,
string) device UID, and whatever the body of `manageFirmware` would compute
had the call bound (continuation `k`), the call
`manageFirmware(project, deviceUID, payload, rules=…, is_dry_run=…)` fails to
bind — `manageFirmware` accepts no `is_dry_run` keyword, and the third
positional argument (the payload) would land in the `fleetUID` parameter
slot — so `lambda_handler` answers with status 500 and never 200. -/
theorem lambda_handler_is_dry_run_typeerror
    (k : List (String × Nat) × List String → Except String String)
    (authResult payload : List (String × Val))
    (hauth : pyTruthy (pyGetD authResult "success" (.bool false)) = true)
    (hdev : pyTruthy (pyGet payload "device") = true)
    (hstr : isStrVal (pyGet payload "device") = true) :
    Main.lambda_handler k authResult payload
      = ⟨500, Main.dumpsError
          "TypeError: manageFirmware() got an unexpected keyword argument is_dry_run"⟩
    ∧ (Main.lambda_handler k authResult payload).statusCode ≠ 200
    ∧ Main.bindCall Main.manageFirmwareParams 3 ["rules", "is_dry_run"] "manageFirmware"
      = .error "TypeError: manageFirmware() got an unexpected keyword argument is_dry_run"
    ∧ (Main.manageFirmwareParams.take 3).enum.map (fun p => (p.2, p.1))
      = [("project", 0), ("deviceUID", 1), ("fleetUID", 2)] := by
  have hb : Main.processRoutedSession k
      = .error "TypeError: manageFirmware() got an unexpected keyword argument is_dry_run" := rfl
  have hmain : Main.lambda_handler k authResult payload
      = ⟨500, Main.dumpsError
          "TypeError: manageFirmware() got an unexpected keyword argument is_dry_run"⟩ := by
    unfold Main.lambda_handler
    rw [hauth]
    simp only [Bool.true_eq_false, if_false, hdev, hstr, Bool.and_self, hb]
  refine ⟨hmain, ?_, rfl, rfl⟩
  rw [hmain]
  simp

/-- C2 witness: a concrete authenticated event with device UID `dev:1` and an
arbitrary continuation yields the 500 response. -/
theorem lambda_handler_is_dry_run_typeerror_witness :
    Main.lambda_handler (fun _ => .ok "unused") [("success", .bool true)]
        [("device", .str "dev:1")]
      = ⟨500, Main.dumpsError
          "TypeError: manageFirmware() got an unexpected keyword argument is_dry_run"⟩ :=
  (lambda_handler_is_dry_run_typeerror (fun _ => .ok "unused")
    [("success", .bool true)] [("device", .str "dev:1")] rfl rfl rfl).1

/-- C6 counterexample: the field path `a` resolves to absent on an empty
attribute map, the condition is the explicit null literal, and the
literal-equality match returns `true`, not `false` — in Python
`None == None` holds — so a rule guarded by an explicit null literal on an
absent field matches and returns its target. -/
theorem absent_matches_null_literal_counterexample :
    RulesEngine.resolve_field_value [] "a" = Val.none
    ∧ RulesEngine.match_condition noFn (RulesEngine.resolve_field_value [] "a") Val.none = true
    ∧ RulesEngine.getFirmwareUpdateTargets noFn []
        (.list [.dict [("id", .str "r"), ("conditions", .dict [("a", Val.none)]),
                       ("target_versions", .str "t")]])
      = .ok (.str "r", .str "t") :=
  ⟨rfl, rfl, rfl⟩

/-- C6 (amended): for every field path that resolves to absent and every
literal (non-callable) condition value other than the explicit null literal,
the literal-equality match returns false; the explicit null literal is the
one literal an absent value satisfies. -/
theorem absent_never_matches_non_null_literal (fnEnv : FnEnv)
    (device_data : List (String × Val)) (field_name : String) (c : Val)
    (hres : RulesEngine.resolve_field_value device_data field_name = Val.none)
    (hlit : ∀ f, c ≠ Val.fn f) (hnull : c ≠ Val.none) :
    RulesEngine.match_condition fnEnv
      (RulesEngine.resolve_field_value device_data field_name) c = false := by
  rw [hres]
  cases c with
  | none => exact absurd rfl hnull
  | fn f => exact absurd rfl (hlit f)
  | bool b => rfl
  | int n => rfl
  | str s => rfl
  | list xs => rfl
  | dict kvs => rfl

/-- C6 witness: the absent value never equals the string literal `x`. -/
theorem absent_never_matches_non_null_literal_witness :
    RulesEngine.match_condition noFn
      (RulesEngine.resolve_field_value [] "a") (.str "x") = false :=
  absent_never_matches_non_null_literal noFn [] "a" (.str "x") rfl
    (fun _ h => Val.noConfusion h) (fun h => Val.noConfusion h)

theorem evalRulesFromGeneral_first_match (fnEnv : FnEnv)
    (dd : List (String × Val)) :
    ∀ (l : List Val) (base i : Nat) (hi : i < l.length) (idi tvi : Val),
      RulesEngine.ruleEval fnEnv dd (base + i) (l.get ⟨i, hi⟩) = .ok (true, idi, tvi) →
      (∀ k (hk : k < i), ∃ idk tvk,
        RulesEngine.ruleEval fnEnv dd (base + k) (l.get ⟨k, Nat.lt_trans hk hi⟩)
          = .ok (false, idk, tvk)) →
      RulesEngine.evalRulesFrom fnEnv dd base l = .ok (idi, tvi) := by
  intro l
  induction l with
  | nil => intro base i hi; exact absurd hi (Nat.not_lt_zero i)
  | cons r rest ih =>
    intro base i hi idi tvi hmatch hmin
    cases i with
    | zero =>
      simp only [Nat.add_zero, List.get] at hmatch
      simp only [RulesEngine.evalRulesFrom, hmatch]
    | succ k =>
      obtain ⟨id0, tv0, h0⟩ := hmin 0 (Nat.succ_pos k)
      simp only [Nat.add_zero, List.get] at h0
      simp only [RulesEngine.evalRulesFrom, h0]
      have hk' : k < rest.length := Nat.lt_of_succ_lt_succ hi
      apply ih (base + 1) k hk' idi tvi
      · have : base + 1 + k = base + (k + 1) := by omega
        rw [this]
        simpa using hmatch
      · intro k2 hk2
        obtain ⟨idk, tvk, hkk⟩ := hmin (k2 + 1) (Nat.succ_lt_succ hk2)
        refine ⟨idk, tvk, ?_⟩
        have : base + 1 + k2 = base + (k2 + 1) := by omega
        rw [this]
        simpa using hkk

theorem evalRulesFromFixed_first_match (fnEnv : FnEnv)
    (fleetUID notecardVersion hostVersion : Val) :
    ∀ (l : List Val) (base i : Nat) (hi : i < l.length) (idi tvi : Val),
      ManageFirmware.ruleEval fnEnv fleetUID notecardVersion hostVersion
        (base + i) (l.get ⟨i, hi⟩) = .ok (true, idi, tvi) →
      (∀ k (hk : k < i), ∃ idk tvk,
        ManageFirmware.ruleEval fnEnv fleetUID notecardVersion hostVersion
          (base + k) (l.get ⟨k, Nat.lt_trans hk hi⟩) = .ok (false, idk, tvk)) →
      ManageFirmware.evalRulesFrom fnEnv fleetUID notecardVersion hostVersion base l
        = .ok (idi, tvi) := by
  intro l
  induction l with
  | nil => intro base i hi; exact absurd hi (Nat.not_lt_zero i)
  | cons r rest ih =>
    intro base i hi idi tvi hmatch hmin
    cases i with
    | zero =>
      simp only [Nat.add_zero, List.get] at hmatch
      simp only [ManageFirmware.evalRulesFrom, hmatch]
    | succ k =>
      obtain ⟨id0, tv0, h0⟩ := hmin 0 (Nat.succ_pos k)
      simp only [Nat.add_zero, List.get] at h0
      simp only [ManageFirmware.evalRulesFrom, h0]
      have hk' : k < rest.length := Nat.lt_of_succ_lt_succ hi
      apply ih (base + 1) k hk' idi tvi
      · have : base + 1 + k = base + (k + 1) := by omega
        rw [this]
        simpa using hmatch
      · intro k2 hk2
        obtain ⟨idk, tvk, hkk⟩ := hmin (k2 + 1) (Nat.succ_lt_succ hk2)
        refine ⟨idk, tvk, ?_⟩
        have : base + 1 + k2 = base + (k2 + 1) := by omega
        rw [this]
        simpa using hkk

/-- C5: in both rule evaluators, whenever the rules at positions `i < j` both
have all their conditions satisfied and evaluation reaches position `i` as
the first full match (every earlier rule evaluates to a clean non-match),
the returned pair is the id and target of the rule at position `i`: rules
are visited in list order and evaluation returns at the first full match. -/
theorem first_match_wins :
    (∀ (fnEnv : FnEnv) (dd : List (String × Val)) (rules : List Val)
       (i j : Nat) (hij : i < j) (hj : j < rules.length) (idi tvi idj tvj : Val),
      RulesEngine.ruleEval fnEnv dd i (rules.get ⟨i, Nat.lt_trans hij hj⟩)
        = .ok (true, idi, tvi) →
      RulesEngine.ruleEval fnEnv dd j (rules.get ⟨j, hj⟩) = .ok (true, idj, tvj) →
      (∀ k (hk : k < i), ∃ idk tvk,
        RulesEngine.ruleEval fnEnv dd k
          (rules.get ⟨k, Nat.lt_trans hk (Nat.lt_trans hij hj)⟩)
          = .ok (false, idk, tvk)) →
      RulesEngine.getFirmwareUpdateTargets fnEnv dd (.list rules) = .ok (idi, tvi))
    ∧ (∀ (fnEnv : FnEnv) (fleetUID ncv hv : Val) (rules : List Val)
       (i j : Nat) (hij : i < j) (hj : j < rules.length) (idi tvi idj tvj : Val),
      ManageFirmware.ruleEval fnEnv fleetUID ncv hv i
        (rules.get ⟨i, Nat.lt_trans hij hj⟩) = .ok (true, idi, tvi) →
      ManageFirmware.ruleEval fnEnv fleetUID ncv hv j (rules.get ⟨j, hj⟩)
        = .ok (true, idj, tvj) →
      (∀ k (hk : k < i), ∃ idk tvk,
        ManageFirmware.ruleEval fnEnv fleetUID ncv hv k
          (rules.get ⟨k, Nat.lt_trans hk (Nat.lt_trans hij hj)⟩)
          = .ok (false, idk, tvk)) →
      ManageFirmware.getFirmwareUpdateTargets fnEnv fleetUID ncv hv (.list rules)
        = .ok (idi, tvi)) := by
  constructor
  · intro fnEnv dd rules i j hij hj idi tvi idj tvj hi hjm hmin
    have := evalRulesFromGeneral_first_match fnEnv dd rules 0 i
      (Nat.lt_trans hij hj) idi tvi (by simpa using hi)
      (by intro k hk; simpa using hmin k hk)
    simpa [RulesEngine.getFirmwareUpdateTargets] using this
  · intro fnEnv fleetUID ncv hv rules i j hij hj idi tvi idj tvj hi hjm hmin
    have := evalRulesFromFixed_first_match fnEnv fleetUID ncv hv rules 0 i
      (Nat.lt_trans hij hj) idi tvi (by simpa using hi)
      (by intro k hk; simpa using hmin k hk)
    simpa [ManageFirmware.getFirmwareUpdateTargets] using this

/-- C5 witness: with rule 0 not matching and rules 1 and 2 both matching,
both evaluators return rule 1's id and target. -/
theorem first_match_wins_witness :
    RulesEngine.getFirmwareUpdateTargets noFn []
      (.list [.dict [("id", .str "zero"), ("conditions", .dict [("a", .str "x")]),
                     ("target_versions", .str "t0")],
              .dict [("id", .str "one"), ("conditions", .none),
                     ("target_versions", .str "t1")],
              .dict [("id", .str "two"), ("conditions", .none),
                     ("target_versions", .str "t2")]])
      = .ok (.str "one", .str "t1")
    ∧ ManageFirmware.getFirmwareUpdateTargets noFn (.str "f") (.str "8.1.3") (.str "3.1.2")
      (.list [.dict [("id", .str "zero"), ("conditions", .dict [("notecard", .str "nope")]),
                     ("targetVersions", .str "t0")],
              .dict [("id", .str "one"), ("conditions", .none),
                     ("targetVersions", .str "t1")],
              .dict [("id", .str "two"), ("conditions", .none),
                     ("targetVersions", .str "t2")]])
      = .ok (.str "one", .str "t1") := by
  constructor
  · apply first_match_wins.1 noFn []
      [.dict [("id", .str "zero"), ("conditions", .dict [("a", .str "x")]),
              ("target_versions", .str "t0")],
       .dict [("id", .str "one"), ("conditions", .none),
              ("target_versions", .str "t1")],
       .dict [("id", .str "two"), ("conditions", .none),
              ("target_versions", .str "t2")]]
      1 2 (by omega) (by simp) (.str "one") (.str "t1") (.str "two") (.str "t2")
      rfl rfl
    intro k hk
    have hk0 : k = 0 := by omega
    subst hk0
    exact ⟨.str "zero", .str "t0", rfl⟩
  · apply first_match_wins.2 noFn (.str "f") (.str "8.1.3") (.str "3.1.2")
      [.dict [("id", .str "zero"), ("conditions", .dict [("notecard", .str "nope")]),
              ("targetVersions", .str "t0")],
       .dict [("id", .str "one"), ("conditions", .none),
              ("targetVersions", .str "t1")],
       .dict [("id", .str "two"), ("conditions", .none),
              ("targetVersions", .str "t2")]]
      1 2 (by omega) (by simp) (.str "one") (.str "t1") (.str "two") (.str "t2")
      rfl rfl
    intro k hk
    have hk0 : k = 0 := by omega
    subst hk0
    exact ⟨.str "zero", .str "t0", rfl⟩

theorem resolveVersion_shape (arg : Val) (hist : List (String × Val))
    (dev ch : String) (v : Val) (tr : List ExtCall)
    (h : ManageFirmware.resolveVersion arg hist dev ch = .ok (v, tr)) :
    tr = [] ∨ tr = [ExtCall.historyQuery dev ch] := by
  cases arg with
  | none =>
    unfold ManageFirmware.resolveVersion at h
    cases hf : ManageFirmware.fetchDeviceFirmwareVersion hist with
    | error e => rw [hf] at h; exact absurd h (by simp [Except.map])
    | ok v0 =>
      rw [hf] at h
      simp only [Except.map, Except.ok.injEq, Prod.mk.injEq] at h
      exact Or.inr h.2.symm
  | bool b => exact Or.inl (by injection h with h1; injection h1 with _ h2; exact h2.symm)
  | int n => exact Or.inl (by injection h with h1; injection h1 with _ h2; exact h2.symm)
  | str s => exact Or.inl (by injection h with h1; injection h1 with _ h2; exact h2.symm)
  | list xs => exact Or.inl (by injection h with h1; injection h1 with _ h2; exact h2.symm)
  | dict kvs => exact Or.inl (by injection h with h1; injection h1 with _ h2; exact h2.symm)
  | fn f => exact Or.inl (by injection h with h1; injection h1 with _ h2; exact h2.symm)

/-- The rule-identification clause `According to rule id {ruleID},` that
`manageFirmware` builds for a matched rule. -/
def ruleIdClause (rid : Val) : String := s!"According to rule id {pyStr rid},"

/-- C8: whenever a rule matched with a non-null target (and the current
versions resolved), the orchestrator queries the notecard update status
first; if the notecard reports an update in progress the whole orchestration
returns the blocked-on-notecard message with the notecard status query as its
only status query and no update request — the host status is never queried;
if instead the host reports an update in progress (notecard idle) the whole
orchestration returns the blocked-on-host message, the trace shows the
notecard status query strictly before the host one, and no update request is
performed. -/
theorem notecard_guard_before_host_guard
    (env : ManageFirmware.ProjectEnv) (st : ManageFirmware.CacheState)
    (now : Int) (fnEnv : FnEnv) (deviceUID : String)
    (fleetUID ncVArg hostVArg rules ncv hv : Val) (tr1 tr2 : List ExtCall)
    (rid tv : Val)
    (hnc : ManageFirmware.resolveVersion ncVArg env.ncHistory deviceUID
      ManageFirmware.notecardType = .ok (ncv, tr1))
    (hhost : ManageFirmware.resolveVersion hostVArg env.hostHistory deviceUID
      ManageFirmware.hostType = .ok (hv, tr2))
    (heval : ManageFirmware.getFirmwareUpdateTargets fnEnv fleetUID ncv hv rules
      = .ok (rid, tv))
    (hrid : rid ≠ Val.none) (htv : tv ≠ Val.none) :
    (pyTruthy (pyGetD env.ncStatus "dfu_in_progress" (.bool false)) = true →
      ManageFirmware.manageFirmware env st now fnEnv deviceUID fleetUID ncVArg
          hostVArg rules
        = .ok (s!"{ruleIdClause rid} firmware requirements NOT met.  Update not requested because Notecard update is in progress",
            st, (tr1 ++ tr2) ++ [ExtCall.statusQuery deviceUID ManageFirmware.notecardType])
      ∧ (ManageFirmware.callsOf (ManageFirmware.manageFirmware env st now fnEnv
          deviceUID fleetUID ncVArg hostVArg rules)).filter ExtCall.isStatusQuery
        = [ExtCall.statusQuery deviceUID ManageFirmware.notecardType]
      ∧ (ManageFirmware.callsOf (ManageFirmware.manageFirmware env st now fnEnv
          deviceUID fleetUID ncVArg hostVArg rules)).filter ExtCall.isUpdateRequest
        = [])
    ∧ (pyTruthy (pyGetD env.ncStatus "dfu_in_progress" (.bool false)) = false →
       pyTruthy (pyGetD env.hostStatus "dfu_in_progress" (.bool false)) = true →
      ManageFirmware.manageFirmware env st now fnEnv deviceUID fleetUID ncVArg
          hostVArg rules
        = .ok (s!"{ruleIdClause rid} firmware requirements NOT met.  Update not requested because Host update is in progress",
            st, ((tr1 ++ tr2) ++ [ExtCall.statusQuery deviceUID ManageFirmware.notecardType])
              ++ [ExtCall.statusQuery deviceUID ManageFirmware.hostType])
      ∧ (ManageFirmware.callsOf (ManageFirmware.manageFirmware env st now fnEnv
          deviceUID fleetUID ncVArg hostVArg rules)).filter ExtCall.isStatusQuery
        = [ExtCall.statusQuery deviceUID ManageFirmware.notecardType,
           ExtCall.statusQuery deviceUID ManageFirmware.hostType]
      ∧ (ManageFirmware.callsOf (ManageFirmware.manageFirmware env st now fnEnv
          deviceUID fleetUID ncVArg hostVArg rules)).filter ExtCall.isUpdateRequest
        = []) := by
  have htr1 := resolveVersion_shape ncVArg env.ncHistory deviceUID
    ManageFirmware.notecardType ncv tr1 hnc
  have htr2 := resolveVersion_shape hostVArg env.hostHistory deviceUID
    ManageFirmware.hostType hv tr2 hhost
  constructor
  · intro hg
    have hres : ManageFirmware.manageFirmware env st now fnEnv deviceUID fleetUID
        ncVArg hostVArg rules
        = .ok (s!"{ruleIdClause rid} firmware requirements NOT met.  Update not requested because Notecard update is in progress",
            st, (tr1 ++ tr2) ++ [ExtCall.statusQuery deviceUID ManageFirmware.notecardType]) := by
      unfold ManageFirmware.manageFirmware
      simp only [hnc, hhost, heval]
      cases rid <;> try exact absurd rfl hrid
      all_goals cases tv <;> try exact absurd rfl htv
      all_goals simp [hg, ruleIdClause]
    refine ⟨hres, ?_, ?_⟩ <;>
      rw [hres] <;>
      rcases htr1 with h1 | h1 <;> rcases htr2 with h2 | h2 <;>
      subst h1 <;> subst h2 <;>
      simp [ManageFirmware.callsOf, ExtCall.isStatusQuery, ExtCall.isUpdateRequest,
        List.filter]
  · intro hg hh
    have hres : ManageFirmware.manageFirmware env st now fnEnv deviceUID fleetUID
        ncVArg hostVArg rules
        = .ok (s!"{ruleIdClause rid} firmware requirements NOT met.  Update not requested because Host update is in progress",
            st, ((tr1 ++ tr2) ++ [ExtCall.statusQuery deviceUID ManageFirmware.notecardType])
              ++ [ExtCall.statusQuery deviceUID ManageFirmware.hostType]) := by
      unfold ManageFirmware.manageFirmware
      simp only [hnc, hhost, heval]
      cases rid <;> try exact absurd rfl hrid
      all_goals cases tv <;> try exact absurd rfl htv
      all_goals simp [hg, hh, ruleIdClause]
    refine ⟨hres, ?_, ?_⟩ <;>
      rw [hres] <;>
      rcases htr1 with h1 | h1 <;> rcases htr2 with h2 | h2 <;>
      subst h1 <;> subst h2 <;>
      simp [ManageFirmware.callsOf, ExtCall.isStatusQuery, ExtCall.isUpdateRequest,
        List.filter]

/-- C8 witness: with the notecard channel reporting an update in progress,
the orchestration returns the single blocked-on-notecard message and its only
external call is the notecard status query. -/
theorem notecard_guard_before_host_guard_witness :
    ManageFirmware.manageFirmware
      { ncHistory := [], hostHistory := [],
        ncStatus := [("dfu_in_progress", .bool true)],
        hostStatus := [("dfu_in_progress", .bool false)],
        catalog := demoCatalog }
      ManageFirmware.initialCache 1000 noFn "device123" .none
      (.str "8.1.3") (.str "3.1.2")
      (.list [.dict [("id", .str "rule-1"), ("conditions", .none),
                     ("targetVersions", .dict [("notecard", .str "8.1.4")])]])
      = .ok ("According to rule id rule-1, firmware requirements NOT met.  Update not requested because Notecard update is in progress",
          ManageFirmware.initialCache,
          [ExtCall.statusQuery "device123" "notecard"]) :=
  ((notecard_guard_before_host_guard
      { ncHistory := [], hostHistory := [],
        ncStatus := [("dfu_in_progress", .bool true)],
        hostStatus := [("dfu_in_progress", .bool false)],
        catalog := demoCatalog }
      ManageFirmware.initialCache 1000 noFn "device123" .none
      (.str "8.1.3") (.str "3.1.2")
      (.list [.dict [("id", .str "rule-1"), ("conditions", .none),
                     ("targetVersions", .dict [("notecard", .str "8.1.4")])]])
      (.str "8.1.3") (.str "3.1.2") [] [] (.str "rule-1")
      (.dict [("notecard", .str "8.1.4")])
      rfl rfl rfl (fun h => Val.noConfusion h) (fun h => Val.noConfusion h)).1
    rfl).1

theorem ruleEval_id_ne_none (fnEnv : FnEnv) (dd : List (String × Val))
    (i : Nat) (r : Val) (b : Bool) (rid tv : Val)
    (hid : ∀ d, r = Val.dict d → hasKey d "id" = true → pyGet d "id" ≠ Val.none)
    (h : RulesEngine.ruleEval fnEnv dd i r = .ok (b, rid, tv)) :
    rid ≠ Val.none := by
  cases r with
  | dict d =>
    simp only [RulesEngine.ruleEval] at h
    cases hc : RulesEngine.checkConditions fnEnv dd (pyGet d "conditions") with
    | error e => rw [hc] at h; exact absurd h (by simp [Except.map])
    | ok bb =>
      rw [hc] at h
      simp only [Except.map, Except.ok.injEq, Prod.mk.injEq] at h
      obtain ⟨-, hrid, -⟩ := h
      by_cases hk : hasKey d "id" = true
      · rw [← hrid, pyGetD_of_hasKey d "id" _ hk]
        exact hid d rfl hk
      · rw [← hrid, pyGetD_of_not_hasKey d "id" _ (by simpa using hk)]
        exact fun hfalse => Val.noConfusion hfalse
  | none => exact absurd h (by simp [RulesEngine.ruleEval])
  | bool b2 => exact absurd h (by simp [RulesEngine.ruleEval])
  | int n => exact absurd h (by simp [RulesEngine.ruleEval])
  | str s => exact absurd h (by simp [RulesEngine.ruleEval])
  | list xs => exact absurd h (by simp [RulesEngine.ruleEval])
  | fn f => exact absurd h (by simp [RulesEngine.ruleEval])

theorem evalRulesFrom_all_false (fnEnv : FnEnv) (dd : List (String × Val)) :
    ∀ (l : List Val) (base : Nat),
      (∀ k (hk : k < l.length), ∃ i t,
        RulesEngine.ruleEval fnEnv dd (base + k) (l.get ⟨k, hk⟩) = .ok (false, i, t)) →
      RulesEngine.evalRulesFrom fnEnv dd base l = .ok (.none, .none) := by
  intro l
  induction l with
  | nil => intro base h; rfl
  | cons r rest ih =>
    intro base h
    obtain ⟨i0, t0, h0⟩ := h 0 (Nat.succ_pos rest.length)
    simp only [Nat.add_zero, List.get] at h0
    simp only [RulesEngine.evalRulesFrom, h0]
    apply ih (base + 1)
    intro k hk
    obtain ⟨ik, tk, hkk⟩ := h (k + 1) (Nat.succ_lt_succ hk)
    refine ⟨ik, tk, ?_⟩
    have : base + 1 + k = base + (k + 1) := by omega
    rw [this]
    simpa using hkk

theorem evalRulesFrom_none_imp (fnEnv : FnEnv) (dd : List (String × Val)) :
    ∀ (l : List Val) (base : Nat) (p : Val × Val),
      (∀ d, Val.dict d ∈ l → hasKey d "id" = true → pyGet d "id" ≠ Val.none) →
      RulesEngine.evalRulesFrom fnEnv dd base l = .ok p → p.1 = Val.none →
      ∀ k (hk : k < l.length), ∃ i t,
        RulesEngine.ruleEval fnEnv dd (base + k) (l.get ⟨k, hk⟩) = .ok (false, i, t) := by
  intro l
  induction l with
  | nil => intro base p _ _ _ k hk; exact absurd hk (Nat.not_lt_zero k)
  | cons r rest ih =>
    intro base p hid heval hp
    cases hr : RulesEngine.ruleEval fnEnv dd base r with
    | error e =>
      rw [RulesEngine.evalRulesFrom, hr] at heval
      exact absurd heval (by simp)
    | ok trip =>
      obtain ⟨b, i0, t0⟩ := trip
      cases b with
      | true =>
        rw [RulesEngine.evalRulesFrom, hr] at heval
        have hi0 : i0 = Val.none := by
          have := heval
          simp only [Except.ok.injEq] at this
          rw [← this] at hp
          exact hp
        exact absurd hi0
          (ruleEval_id_ne_none fnEnv dd base r true i0 t0
            (fun d hd => hid d (hd ▸ List.mem_cons_self r rest)) hr)
      | false =>
        rw [RulesEngine.evalRulesFrom, hr] at heval
        intro k hk
        cases k with
        | zero => exact ⟨i0, t0, by simpa using hr⟩
        | succ k2 =>
          have hk2 : k2 < rest.length := Nat.lt_of_succ_lt_succ hk
          obtain ⟨ik, tk, hkk⟩ := ih (base + 1) p
            (fun d hd => hid d (List.mem_cons_of_mem r hd)) heval hp k2 hk2
          refine ⟨ik, tk, ?_⟩
          have : base + (k2 + 1) = base + 1 + k2 := by omega
          rw [this]
          simpa using hkk

/-- C9 counterexample: a rule carrying an explicit null id matches (its
evaluation yields a full match), yet the engine returns the both-absent
sentinel pair — so `(None, None)` does not imply that no rule matched, and a
matched rule's returned id can be absent. -/
theorem null_id_sentinel_counterexample :
    RulesEngine.ruleEval noFn [] 0
      (.dict [("id", Val.none), ("conditions", Val.none), ("target_versions", Val.none)])
      = .ok (true, Val.none, Val.none)
    ∧ RulesEngine.getFirmwareUpdateTargets noFn []
      (.list [.dict [("id", Val.none), ("conditions", Val.none),
                     ("target_versions", Val.none)]])
      = .ok (Val.none, Val.none) :=
  ⟨rfl, rfl⟩

/-- C9 (amended): for every rule list in which no rule carries an explicit
null id, the engine returns the both-absent pair exactly when every rule
evaluates to a clean non-match, and a matched rule's id is non-absent; the
orchestrator maps the evaluator's `(None, None)` outcome to the fixed
`No rule conditions met` message and a matched rule with null target to the
`requirements met` message naming the rule id. -/
theorem no_match_sentinel_distinct
    (fnEnv : FnEnv) (dd : List (String × Val)) (rules : List Val)
    (hid : ∀ d, Val.dict d ∈ rules → hasKey d "id" = true → pyGet d "id" ≠ Val.none) :
    ((∀ k (hk : k < rules.length), ∃ i t,
        RulesEngine.ruleEval fnEnv dd k (rules.get ⟨k, hk⟩) = .ok (false, i, t)) →
      RulesEngine.getFirmwareUpdateTargets fnEnv dd (.list rules) = .ok (.none, .none))
    ∧ (∀ p, RulesEngine.getFirmwareUpdateTargets fnEnv dd (.list rules) = .ok p →
        p.1 = Val.none →
        ∀ k (hk : k < rules.length), ∃ i t,
          RulesEngine.ruleEval fnEnv dd k (rules.get ⟨k, hk⟩) = .ok (false, i, t))
    ∧ (∀ (env : ManageFirmware.ProjectEnv) (st : ManageFirmware.CacheState)
        (now : Int) (fE : FnEnv) (dev : String) (fleetUID ncA hostA rls ncv hv : Val)
        (tr1 tr2 : List ExtCall),
        ManageFirmware.resolveVersion ncA env.ncHistory dev
          ManageFirmware.notecardType = .ok (ncv, tr1) →
        ManageFirmware.resolveVersion hostA env.hostHistory dev
          ManageFirmware.hostType = .ok (hv, tr2) →
        ManageFirmware.getFirmwareUpdateTargets fE fleetUID ncv hv rls
          = .ok (Val.none, Val.none) →
        ManageFirmware.manageFirmware env st now fE dev fleetUID ncA hostA rls
          = .ok ("No rule conditions met. No updates required", st, tr1 ++ tr2))
    ∧ (∀ (env : ManageFirmware.ProjectEnv) (st : ManageFirmware.CacheState)
        (now : Int) (fE : FnEnv) (dev : String) (fleetUID ncA hostA rls ncv hv : Val)
        (tr1 tr2 : List ExtCall) (rid : String),
        ManageFirmware.resolveVersion ncA env.ncHistory dev
          ManageFirmware.notecardType = .ok (ncv, tr1) →
        ManageFirmware.resolveVersion hostA env.hostHistory dev
          ManageFirmware.hostType = .ok (hv, tr2) →
        ManageFirmware.getFirmwareUpdateTargets fE fleetUID ncv hv rls
          = .ok (.str rid, Val.none) →
        ManageFirmware.manageFirmware env st now fE dev fleetUID ncA hostA rls
          = .ok (s!"{ruleIdClause (Val.str rid)} firmware requirements met, no updates required",
              st, tr1 ++ tr2)) := by
  refine ⟨?_, ?_, ?_, ?_⟩
  · intro hall
    have := evalRulesFrom_all_false fnEnv dd rules 0
      (by intro k hk; simpa using hall k hk)
    simpa [RulesEngine.getFirmwareUpdateTargets] using this
  · intro p heval hp k hk
    have heval0 : RulesEngine.evalRulesFrom fnEnv dd 0 rules = .ok p := by
      simpa [RulesEngine.getFirmwareUpdateTargets] using heval
    have := evalRulesFrom_none_imp fnEnv dd rules 0 p hid heval0 hp k hk
    simpa using this
  · intro env st now fE dev fleetUID ncA hostA rls ncv hv tr1 tr2 h1 h2 h3
    unfold ManageFirmware.manageFirmware
    simp only [h1, h2, h3]
  · intro env st now fE dev fleetUID ncA hostA rls ncv hv tr1 tr2 rid h1 h2 h3
    unfold ManageFirmware.manageFirmware
    simp only [h1, h2, h3]
    simp [pyStr, ruleIdClause]

/-- C9 witness: a non-matching one-rule list (without a null id) yields the
sentinel pair; the orchestrator renders the sentinel as the fixed no-match
message and a matched default rule with null target as the requirements-met
message naming `rule-1`. -/
theorem no_match_sentinel_distinct_witness :
    RulesEngine.getFirmwareUpdateTargets noFn []
      (.list [.dict [("conditions", .dict [("a", .str "x")]),
                     ("target_versions", .str "t")]])
      = .ok (.none, .none)
    ∧ ManageFirmware.manageFirmware demoEnv ManageFirmware.initialCache 1000 noFn
      "device123" .none (.str "8.1.3") (.str "3.1.2") (.list [])
      = .ok ("No rule conditions met. No updates required",
          ManageFirmware.initialCache, [])
    ∧ ManageFirmware.manageFirmware demoEnv ManageFirmware.initialCache 1000 noFn
      "device123" .none (.str "8.1.3") (.str "3.1.2") (.dict [])
      = .ok ("According to rule id rule-1, firmware requirements met, no updates required",
          ManageFirmware.initialCache, []) := by
  refine ⟨?_, ?_, ?_⟩
  · apply (no_match_sentinel_distinct noFn []
      [.dict [("conditions", .dict [("a", .str "x")]), ("target_versions", .str "t")]]
      ?hid).1
    · intro k hk
      have hk1 : k < 1 := by simpa using hk
      have hk0 : k = 0 := by omega
      subst hk0
      exact ⟨.str "rule-1", .str "t", rfl⟩
    · intro d hd hk
      have hd2 := List.mem_singleton.mp hd
      injection hd2 with hd3
      subst hd3
      exact absurd hk (by decide)
  · exact (no_match_sentinel_distinct noFn [] [] (fun d hd => absurd hd
      (List.not_mem_nil _))).2.2.1 demoEnv ManageFirmware.initialCache 1000 noFn
      "device123" .none (.str "8.1.3") (.str "3.1.2") (.list [])
      (.str "8.1.3") (.str "3.1.2") [] [] rfl rfl rfl
  · exact (no_match_sentinel_distinct noFn [] [] (fun d hd => absurd hd
      (List.not_mem_nil _))).2.2.2 demoEnv ManageFirmware.initialCache 1000 noFn
      "device123" .none (.str "8.1.3") (.str "3.1.2") (.dict [])
      (.str "8.1.3") (.str "3.1.2") [] [] "rule-1" rfl rfl rfl

/-- C10 counterexample: on the same one-rule set — conditions keyed only by
the fixed field `notecard` (with an explicit null condition value) and target
stored under `target_versions` — the fixed-key evaluator matches (null
condition value means no check) and returns `rule-1` with a `None` target
(it reads the `targetVersions` key), while the general evaluator does not
match (a null condition value is an equality test against `None`) and
returns the sentinel pair: the two results differ. -/
theorem fixed_vs_general_counterexample :
    ManageFirmware.getFirmwareUpdateTargets noFn .none (.str "v") .none
      (.list [.dict [("conditions", .dict [("notecard", Val.none)]),
                     ("target_versions", .str "T")]])
      = .ok (.str "rule-1", Val.none)
    ∧ RulesEngine.getFirmwareUpdateTargets noFn
      [("notecard", .str "v"), ("host", Val.none), ("fleet", Val.none)]
      (.list [.dict [("conditions", .dict [("notecard", Val.none)]),
                     ("target_versions", .str "T")]])
      = .ok (Val.none, Val.none)
    ∧ Val.str "rule-1" ≠ Val.none :=
  ⟨rfl, rfl, fun h => Val.noConfusion h⟩

theorem match_condition_agree (fnEnv : FnEnv) (x v : Val) (hv : v ≠ Val.none) :
    ManageFirmware.match_condition fnEnv x v = RulesEngine.match_condition fnEnv x v := by
  cases v with
  | none => exact absurd rfl hv
  | fn f => rfl
  | bool b => rfl
  | int n => rfl
  | str s => rfl
  | list xs => rfl
  | dict kvs => rfl

theorem hasKey_eq_false_of_not_mem (l : List (String × Val)) (k : String)
    (h : k ∉ l.map Prod.fst) : hasKey l k = false := by
  induction l with
  | nil => rfl
  | cons p rest ih =>
    cases p with
    | mk k1 v =>
      simp only [List.map_cons, List.mem_cons, not_or] at h
      simp only [hasKey, Bool.or_eq_false_iff, beq_eq_false_iff_ne]
      exact ⟨fun he => h.1 he.symm, ih h.2⟩

theorem and_shuffle_mid (a x c : Bool) : ((a && x) && c) = (x && ((a && true) && c)) := by
  cases a <;> cases x <;> cases c <;> rfl

theorem and_shuffle_last (a b x : Bool) : ((a && b) && x) = (x && ((a && b) && true)) := by
  cases a <;> cases b <;> cases x <;> rfl

theorem checkCondList_fixed (fnEnv : FnEnv) (fleetUID ncv hv : Val) :
    ∀ (cd : List (String × Val)),
      (∀ p ∈ cd, (p.1 = "notecard" ∨ p.1 = "host" ∨ p.1 = "fleet") ∧ p.2 ≠ Val.none) →
      (cd.map Prod.fst).Nodup →
      (ManageFirmware.match_condition fnEnv ncv (pyGet cd "notecard")
        && ManageFirmware.match_condition fnEnv hv (pyGet cd "host")
        && ManageFirmware.match_condition fnEnv fleetUID (pyGet cd "fleet"))
      = RulesEngine.checkCondList fnEnv
          [("notecard", ncv), ("host", hv), ("fleet", fleetUID)] cd := by
  intro cd
  induction cd with
  | nil => intro _ _; rfl
  | cons p rest ih =>
    intro hall hnd
    obtain ⟨k, v⟩ := p
    obtain ⟨hk, hv0⟩ := hall (k, v) (List.mem_cons_self _ _)
    simp only [List.map_cons, List.nodup_cons] at hnd
    have hrest := ih (fun q hq => hall q (List.mem_cons_of_mem _ hq)) hnd.2
    have hnone : pyGet rest k = Val.none :=
      pyGetD_of_not_hasKey rest k Val.none (hasKey_eq_false_of_not_mem rest k hnd.1)
    simp only [RulesEngine.checkCondList]
    rcases hk with hk | hk | hk <;> subst hk
    · have h1 : RulesEngine.resolve_field_value
          [("notecard", ncv), ("host", hv), ("fleet", fleetUID)] "notecard" = ncv := rfl
      rw [h1, ← match_condition_agree fnEnv ncv v hv0, ← hrest]
      simp only [pyGet, pyGetD, if_pos rfl, reduceIte]
      rw [show pyGetD rest "notecard" Val.none = Val.none from hnone]
      simp [ManageFirmware.match_condition, Bool.and_assoc]
    · have h1 : RulesEngine.resolve_field_value
          [("notecard", ncv), ("host", hv), ("fleet", fleetUID)] "host" = hv := rfl
      rw [h1, ← match_condition_agree fnEnv hv v hv0, ← hrest]
      simp only [pyGet, pyGetD, if_pos rfl, reduceIte]
      rw [if_neg (show ¬ ("host" : String) = "notecard" from by decide)]
      rw [if_neg (show ¬ ("host" : String) = "fleet" from by decide)]
      rw [show pyGetD rest "host" Val.none = Val.none from hnone]
      rw [show ManageFirmware.match_condition fnEnv hv Val.none = true from rfl]
      exact and_shuffle_mid _ _ _
    · have h1 : RulesEngine.resolve_field_value
          [("notecard", ncv), ("host", hv), ("fleet", fleetUID)] "fleet" = fleetUID := rfl
      rw [h1, ← match_condition_agree fnEnv fleetUID v hv0, ← hrest]
      simp only [pyGet, pyGetD, if_pos rfl, reduceIte]
      rw [if_neg (show ¬ ("fleet" : String) = "notecard" from by decide)]
      rw [if_neg (show ¬ ("fleet" : String) = "host" from by decide)]
      rw [show pyGetD rest "fleet" Val.none = Val.none from hnone]
      rw [show ManageFirmware.match_condition fnEnv fleetUID Val.none = true from rfl]
      exact and_shuffle_last _ _ _

/-- A rule in the common fragment of the two evaluators: a dict whose
`conditions` are absent or a dict keyed only by the three fixed field names
with no explicit null condition values (and no duplicate keys, as in a Python
dict), and whose `targetVersions` and `target_versions` entries agree. -/
def FixedKeyRule (r : Val) : Prop :=
  ∃ d, r = Val.dict d
    ∧ pyGet d "targetVersions" = pyGet d "target_versions"
    ∧ (pyGet d "conditions" = Val.none
       ∨ ∃ cd, pyGet d "conditions" = Val.dict cd
         ∧ (∀ p ∈ cd, (p.1 = "notecard" ∨ p.1 = "host" ∨ p.1 = "fleet") ∧ p.2 ≠ Val.none)
         ∧ (cd.map Prod.fst).Nodup)

theorem ruleEval_fixed_eq_general (fnEnv : FnEnv) (fleetUID ncv hv : Val)
    (i : Nat) (r : Val) (hr : FixedKeyRule r) :
    ManageFirmware.ruleEval fnEnv fleetUID ncv hv i r
      = RulesEngine.ruleEval fnEnv
          [("notecard", ncv), ("host", hv), ("fleet", fleetUID)] i r := by
  obtain ⟨d, rfl, htgt, hcond⟩ := hr
  simp only [ManageFirmware.ruleEval, RulesEngine.ruleEval]
  rcases hcond with hc | ⟨cd, hc, hall, hnd⟩
  · rw [hc]
    simp [RulesEngine.checkConditions, Except.map, htgt]
  · rw [hc]
    simp only [RulesEngine.checkConditions, Except.map]
    rw [← checkCondList_fixed fnEnv fleetUID ncv hv cd hall hnd, htgt]

theorem evalRulesFrom_fixed_eq_general (fnEnv : FnEnv) (fleetUID ncv hv : Val) :
    ∀ (l : List Val) (base : Nat), (∀ r ∈ l, FixedKeyRule r) →
      ManageFirmware.evalRulesFrom fnEnv fleetUID ncv hv base l
        = RulesEngine.evalRulesFrom fnEnv
            [("notecard", ncv), ("host", hv), ("fleet", fleetUID)] base l := by
  intro l
  induction l with
  | nil => intro base _; rfl
  | cons r rest ih =>
    intro base h
    have hre := ruleEval_fixed_eq_general fnEnv fleetUID ncv hv base r
      (h r (List.mem_cons_self r rest))
    simp only [ManageFirmware.evalRulesFrom, RulesEngine.evalRulesFrom, hre]
    cases RulesEngine.ruleEval fnEnv
        [("notecard", ncv), ("host", hv), ("fleet", fleetUID)] base r with
    | error e => rfl
    | ok trip =>
      obtain ⟨b, i0, t0⟩ := trip
      cases b with
      | true => rfl
      | false => exact ih (base + 1) (fun q hq => h q (List.mem_cons_of_mem r hq))

/-- C10 (amended): for every rule list in the common fragment — conditions
keyed only by the fixed names `notecard`, `host`, `fleet`, with no explicit
null condition values, and targets stored consistently under both the
`targetVersions` key that the fixed-key evaluator reads and the
`target_versions` key that the general evaluator reads — the fixed-key
evaluator applied to `(fleetUID, notecardVersion, hostVersion)` returns the
same pair as the general dot-notation evaluator applied to the attribute map
`{notecard, host, fleet}`.  (The counterexample shows both restrictions are
necessary: an explicit null condition value means `always matches` to the
fixed-key evaluator but `equals None` to the general one, and each evaluator
reads its own target key.) -/
theorem fixed_key_refines_general (fnEnv : FnEnv) (fleetUID ncv hv : Val)
    (rules : List Val) (h : ∀ r ∈ rules, FixedKeyRule r) :
    ManageFirmware.getFirmwareUpdateTargets fnEnv fleetUID ncv hv (.list rules)
      = RulesEngine.getFirmwareUpdateTargets fnEnv
          [("notecard", ncv), ("host", hv), ("fleet", fleetUID)] (.list rules) := by
  have := evalRulesFrom_fixed_eq_general fnEnv fleetUID ncv hv rules 0 h
  simpa [ManageFirmware.getFirmwareUpdateTargets,
    RulesEngine.getFirmwareUpdateTargets] using this

/-- C10 witness: on a one-rule set in the common fragment the two evaluators
agree (and both return the matched rule's pair). -/
theorem fixed_key_refines_general_witness :
    ManageFirmware.getFirmwareUpdateTargets noFn (.str "f") (.str "8.1.3") (.str "3.1.2")
      (.list [.dict [("id", .str "r1"),
                     ("conditions", .dict [("notecard", .str "8.1.3")]),
                     ("targetVersions", .str "T"), ("target_versions", .str "T")]])
      = RulesEngine.getFirmwareUpdateTargets noFn
          [("notecard", .str "8.1.3"), ("host", .str "3.1.2"), ("fleet", .str "f")]
          (.list [.dict [("id", .str "r1"),
                         ("conditions", .dict [("notecard", .str "8.1.3")]),
                         ("targetVersions", .str "T"), ("target_versions", .str "T")]])
    ∧ RulesEngine.getFirmwareUpdateTargets noFn
        [("notecard", .str "8.1.3"), ("host", .str "3.1.2"), ("fleet", .str "f")]
        (.list [.dict [("id", .str "r1"),
                       ("conditions", .dict [("notecard", .str "8.1.3")]),
                       ("targetVersions", .str "T"), ("target_versions", .str "T")]])
      = .ok (.str "r1", .str "T") := by
  constructor
  · apply fixed_key_refines_general noFn (.str "f") (.str "8.1.3") (.str "3.1.2")
    intro r hr
    have hr2 := List.mem_singleton.mp hr
    refine ⟨[("id", .str "r1"),
             ("conditions", .dict [("notecard", .str "8.1.3")]),
             ("targetVersions", .str "T"), ("target_versions", .str "T")], hr2, rfl, ?_⟩
    refine Or.inr ⟨[("notecard", .str "8.1.3")], rfl, ?_, by simp⟩
    intro p hp
    have hp2 := List.mem_singleton.mp hp
    subst hp2
    exact ⟨Or.inl rfl, fun hfalse => Val.noConfusion hfalse⟩
  · rfl

theorem channelStep_dry_no_calls (dev : String) (cur tgt : Val)
    (cr : Except String String) (ch : String) :
    (SpecModel.channelStep true dev cur tgt cr ch).2 = [] := by
  simp only [SpecModel.channelStep]
  split <;> try rfl
  all_goals split <;> try rfl
  all_goals split <;> try rfl

/-- C1: in dry-run mode the modelled Update Orchestrator never performs an
update request, whatever the rule outcome, guards, and cache results; and for
one channel whose feasibility check succeeded (the target map has an entry
differing from the current version and the artifact resolved), the dry-run
channel step produces the conditional `Would request` message with no
external call while the live channel step produces the completed-action
`Requested` message together with exactly one update-request call. -/
theorem dry_run_checks_live_requests :
    (∀ (fnEnv : FnEnv) (attrs : List (String × Val)) (rules ncC hC : Val)
       (ncS hS : Bool) (ncCR hCR : Except String String) (dev : String),
      (SpecModel.callsOf (SpecModel.orchestrate true fnEnv attrs rules ncC hC
        ncS hS ncCR hCR dev)).filter ExtCall.isUpdateRequest = [])
    ∧ (∀ (dev : String) (cur : Val) (m : List (String × Val)) (fw : Val)
        (file ch : String),
        pyGet m ch = fw → fw ≠ Val.none → pyEq fw cur = false →
        SpecModel.channelStep true dev cur (.dict m) (.ok file) ch
          = (s!"Would request {ch} firmware update from {pyStr cur} to {pyStr fw}.", [])
        ∧ SpecModel.channelStep false dev cur (.dict m) (.ok file) ch
          = (s!"Requested {ch} firmware update from {pyStr cur} to {pyStr fw}.",
              [ExtCall.updateRequest dev file ch])) := by
  constructor
  · intro fnEnv attrs rules ncC hC ncS hS ncCR hCR dev
    cases hE : RulesEngine.getFirmwareUpdateTargets fnEnv attrs rules with
    | error e => simp [SpecModel.orchestrate, hE, SpecModel.callsOf]
    | ok p =>
      obtain ⟨rid, tgt⟩ := p
      cases rid <;> cases tgt <;> cases ncS <;> cases hS <;>
        simp [SpecModel.orchestrate, hE, SpecModel.callsOf, ExtCall.isUpdateRequest,
          List.filter, channelStep_dry_no_calls]
  · intro dev cur m fw file ch hfw hfwn hne
    constructor
    · simp only [SpecModel.channelStep]
      rw [hfw]
      cases fw <;> try exact absurd rfl hfwn
      all_goals simp [hne]
    · simp only [SpecModel.channelStep]
      rw [hfw]
      cases fw <;> try exact absurd rfl hfwn
      all_goals simp [hne]

/-- C1 witness: a dry-run orchestration with an eligible notecard target
performs no update request, and on the same channel inputs the dry-run step
says `Would request` with no call while the live step says `Requested` with
exactly one call. -/
theorem dry_run_checks_live_requests_witness :
    (SpecModel.callsOf (SpecModel.orchestrate true noFn []
      (.list [.dict [("id", .str "r"), ("conditions", .none),
                     ("target_versions", .dict [("notecard", .str "8.1.4")])]])
      (.str "8.1.3") (.str "3.1.2") false false
      (.ok "notecard-8.1.4.bin") (.ok "host-3.1.3.bin") "dev")).filter
      ExtCall.isUpdateRequest = []
    ∧ SpecModel.channelStep true "dev" (.str "8.1.3")
        (.dict [("notecard", .str "8.1.4")]) (.ok "notecard-8.1.4.bin") "notecard"
      = ("Would request notecard firmware update from 8.1.3 to 8.1.4.", [])
    ∧ SpecModel.channelStep false "dev" (.str "8.1.3")
        (.dict [("notecard", .str "8.1.4")]) (.ok "notecard-8.1.4.bin") "notecard"
      = ("Requested notecard firmware update from 8.1.3 to 8.1.4.",
          [ExtCall.updateRequest "dev" "notecard-8.1.4.bin" "notecard"]) :=
  ⟨dry_run_checks_live_requests.1 noFn []
      (.list [.dict [("id", .str "r"), ("conditions", .none),
                     ("target_versions", .dict [("notecard", .str "8.1.4")])]])
      (.str "8.1.3") (.str "3.1.2") false false
      (.ok "notecard-8.1.4.bin") (.ok "host-3.1.3.bin") "dev",
   (dry_run_checks_live_requests.2 "dev" (.str "8.1.3")
      [("notecard", .str "8.1.4")] (.str "8.1.4") "notecard-8.1.4.bin" "notecard"
      rfl (fun h => Val.noConfusion h) rfl).1,
   (dry_run_checks_live_requests.2 "dev" (.str "8.1.3")
      [("notecard", .str "8.1.4")] (.str "8.1.4") "notecard-8.1.4.bin" "notecard"
      rfl (fun h => Val.noConfusion h) rfl).2⟩
